import Mathlib

/-!
Shallow embedding of the bevy-graph force-directed layout program
(src/main.rs).  Floating-point values are modelled as real numbers,
2-D vectors (glam `Vec2`) as pairs of reals, the thread-local RNG as an
explicit angle parameter, and ECS entity lookups as `Option`-valued maps
(`none` models a despawned/missing entity; a Rust `unwrap`/`expect`
panic is modelled as the whole computation returning `none`).
-/

/-- 2-D vector, modelling glam `Vec2` with real components. -/
abbrev Vec2 : Type := ℝ × ℝ

/-- `Vec2::from_angle(θ)`: the unit vector `(cos θ, sin θ)`. -/
noncomputable def Vec2.fromAngle (θ : ℝ) : Vec2 := (Real.cos θ, Real.sin θ)

/-- `Vec2::to_angle`, i.e. `self.y.atan2(self.x)`: the argument of the
complex number `v.x + v.y * i`. -/
noncomputable def Vec2.toAngle (v : Vec2) : ℝ := Complex.arg ⟨v.1, v.2⟩

/-- `Vec2::length`: the Euclidean norm. -/
noncomputable def Vec2.length (v : Vec2) : ℝ := Real.sqrt (v.1 ^ 2 + v.2 ^ 2)

/-- Scalar multiplication `v * c` of a glam `Vec2` by an `f32`. -/
def Vec2.smul (c : ℝ) (v : Vec2) : Vec2 := (c * v.1, c * v.2)

/-- The compile-time constant `IDEAL_LENGTH: f32 = 50.` from the source. -/
noncomputable def IDEAL_LENGTH : ℝ := 50

/-- The compile-time constant `COOLING_FACTOR: f32 = 0.2`. -/
noncomputable def COOLING_FACTOR : ℝ := 0.2

/-- The compile-time constant `NODE_TOTAL: usize = 50`. -/
def NODE_TOTAL : ℕ := 50

/-- The compile-time constant `NODE_MASS: f32 = 5.`. -/
noncomputable def NODE_MASS : ℝ := 5

/-- The compile-time constant `COMPLIANCE: f32 = 0.001`. -/
noncomputable def COMPLIANCE : ℝ := 0.001

/-- The compile-time constant `COLLIDER_RADIUS: f32 = 49.`. -/
noncomputable def COLLIDER_RADIUS : ℝ := 49

/-- The run-time `Config` resource (src/main.rs lines 41-49). -/
structure Config where
  ideal_length : ℝ
  cooling_factor : ℝ
  node_mass : ℝ
  compliance : ℝ
  node_total : ℕ
  collider_radius : ℝ

/-- `impl Default for Config`: every field is seeded from the
compile-time constants. -/
noncomputable def Config.default : Config :=
  { ideal_length := IDEAL_LENGTH
    cooling_factor := COOLING_FACTOR
    node_mass := NODE_MASS
    compliance := COMPLIANCE
    node_total := NODE_TOTAL
    collider_radius := COLLIDER_RADIUS }

open Classical in
/-- `fn repulsive_force(a: Vec2, b: Vec2) -> (Vec2, Vec2)`
(src/main.rs lines 156-172).  The random angle drawn from
`rand::thread_rng().gen_range(-PI..=PI)` in the degenerate branch is
passed in as the explicit parameter `θ`. -/
noncomputable def repulsive_force (θ : ℝ) (a b : Vec2) : Vec2 × Vec2 :=
  if a = b then
    let force := IDEAL_LENGTH ^ 2
    (Vec2.smul force (Vec2.fromAngle θ),
     Vec2.smul force (Vec2.fromAngle (θ + Real.pi)))
  else
    let diff := a - b
    let angle := diff.toAngle
    let force := IDEAL_LENGTH ^ 2 / diff.length
    (Vec2.smul force (Vec2.fromAngle angle),
     Vec2.smul force (Vec2.fromAngle (angle + Real.pi)))

/-- The edge-spawning loop of `setup` (src/main.rs lines 107-125):
consume the node-id list three at a time; for each complete triple
`(x, n1, n2)` spawn the joints `(x, n1)` and `(x, n2)`; when fewer than
three ids remain, return with no further edges. -/
def genEdges {α : Type} : List α → List (α × α)
  | x :: n1 :: n2 :: rest => (x, n1) :: (x, n2) :: genEdges rest
  | _ => []

/-- The ECS world as seen by the systems under scrutiny: each entity id
may resolve to a `Transform` translation and a `LinearVelocity`
(`none` models a missing entity/component). -/
structure World where
  transform : ℕ → Option Vec2
  velocity : ℕ → Option Vec2

/-- The collision-handling loop of the `update` system
(src/main.rs lines 128-142): for each `CollisionStarted(a_id, b_id)`
event, look both transforms up (`expect`, so a missing entity aborts —
modelled by `none`), compute the repulsive impulses and queue the two
`DeltaV` events in order.  `randAngle i` supplies the angle the RNG
would draw while the `i`-th event is processed. -/
noncomputable def update (transform : ℕ → Option Vec2) (randAngle : ℕ → ℝ) :
    ℕ → List (ℕ × ℕ) → Option (List (ℕ × Vec2))
  | _, [] => some []
  | i, (aId, bId) :: rest =>
    match transform aId, transform bId with
    | some a, some b =>
      match update transform randAngle (i + 1) rest with
      | some ds =>
          some ((aId, (repulsive_force (randAngle i) a b).1)
            :: (bId, (repulsive_force (randAngle i) a b).2) :: ds)
      | none => none
    | _, _ => none

/-- The `process_delta_v` system (src/main.rs lines 144-154): drain the
queued `DeltaV(id, dv)` events in order, adding each `dv` to the
referenced entity's `LinearVelocity` (`unwrap`, so a missing entity
aborts — modelled by `none`). -/
noncomputable def process_delta_v (vel : ℕ → Option Vec2) :
    List (ℕ × Vec2) → Option (ℕ → Option Vec2)
  | [] => some vel
  | (id, dv) :: rest =>
    match vel id with
    | some v => process_delta_v (fun j => if j = id then some (v + dv) else vel j) rest
    | none => none

/-- The `move_on_drag` observer (src/main.rs lines 174-184): first
`unwrap` the dragged entity's transform (a missing entity aborts —
modelled by `none`); then, if the cursor has no world position, return
without writing anything; otherwise write the cursor position into the
dragged node's translation.  The system's query only borrows
`Transform`, so velocities are untouched by construction, exactly as in
the source. -/
def move_on_drag (w : World) (target : ℕ) (cursor : Option Vec2) : Option World :=
  match w.transform target with
  | none => none
  | some _ =>
    match cursor with
    | none => some w
    | some p =>
        some { w with transform := fun j => if j = target then some p else w.transform j }

theorem Vec2.length_fromAngle (θ : ℝ) : (Vec2.fromAngle θ).length = 1 := by
  unfold Vec2.fromAngle Vec2.length
  rw [Real.cos_sq_add_sin_sq, Real.sqrt_one]

theorem Vec2.fromAngle_add_pi (θ : ℝ) :
    Vec2.fromAngle (θ + Real.pi) = -(Vec2.fromAngle θ) := by
  unfold Vec2.fromAngle
  rw [Real.cos_add, Real.sin_add, Real.cos_pi, Real.sin_pi]
  refine Prod.ext ?_ ?_
  · show Real.cos θ * (-1) - Real.sin θ * 0 = -(Real.cos θ, Real.sin θ).1
    ring
  · show Real.sin θ * (-1) + Real.cos θ * 0 = -(Real.cos θ, Real.sin θ).2
    ring

theorem Vec2.smul_neg_right (c : ℝ) (v : Vec2) :
    Vec2.smul c (-v) = -(Vec2.smul c v) := by
  unfold Vec2.smul
  refine Prod.ext ?_ ?_
  · show c * (-v).1 = -(c * v.1, c * v.2).1
    rw [Prod.fst_neg]; ring
  · show c * (-v).2 = -(c * v.1, c * v.2).2
    rw [Prod.snd_neg]; ring

theorem Vec2.length_smul (c : ℝ) (v : Vec2) :
    (Vec2.smul c v).length = |c| * v.length := by
  unfold Vec2.smul Vec2.length
  rw [mul_pow, mul_pow, ← mul_add, Real.sqrt_mul (sq_nonneg c), Real.sqrt_sq_eq_abs]

theorem Vec2.length_pos (v : Vec2) (hv : v ≠ 0) : 0 < v.length := by
  rw [Vec2.length]
  apply Real.sqrt_pos.mpr
  refine lt_of_le_of_ne (by positivity) fun h0 => hv ?_
  have h := (add_eq_zero_iff_of_nonneg (sq_nonneg v.1) (sq_nonneg v.2)).mp h0.symm
  exact Prod.ext (pow_eq_zero_iff two_ne_zero |>.mp h.1)
    (pow_eq_zero_iff two_ne_zero |>.mp h.2)

theorem Vec2.fromAngle_toAngle (v : Vec2) (hv : v ≠ 0) :
    Vec2.fromAngle v.toAngle = (v.1 / v.length, v.2 / v.length) := by
  have hz : (⟨v.1, v.2⟩ : ℂ) ≠ 0 := by
    intro h
    apply hv
    have h1 : v.1 = 0 := congrArg Complex.re h
    have h2 : v.2 = 0 := congrArg Complex.im h
    exact Prod.ext h1 h2
  have habs : Complex.abs ⟨v.1, v.2⟩ = v.length := by
    rw [Complex.abs_apply, Complex.normSq_mk, Vec2.length]
    congr 1
    ring
  unfold Vec2.fromAngle Vec2.toAngle
  refine Prod.ext ?_ ?_
  · show Real.cos (Complex.arg ⟨v.1, v.2⟩) = (v.1 / v.length, v.2 / v.length).1
    rw [Complex.cos_arg hz, habs]
  · show Real.sin (Complex.arg ⟨v.1, v.2⟩) = (v.1 / v.length, v.2 / v.length).2
    rw [Complex.sin_arg, habs]

theorem repulsive_force_of_ne (θ : ℝ) (a b : Vec2) (h : a ≠ b) :
    repulsive_force θ a b
      = (Vec2.smul (IDEAL_LENGTH ^ 2 / Vec2.length (a - b))
           (Vec2.fromAngle (Vec2.toAngle (a - b))),
         Vec2.smul (IDEAL_LENGTH ^ 2 / Vec2.length (a - b))
           (Vec2.fromAngle (Vec2.toAngle (a - b) + Real.pi))) := by
  rw [repulsive_force, if_neg h]

theorem repulsive_force_of_eq (θ : ℝ) (a b : Vec2) (h : a = b) :
    repulsive_force θ a b
      = (Vec2.smul (IDEAL_LENGTH ^ 2) (Vec2.fromAngle θ),
         Vec2.smul (IDEAL_LENGTH ^ 2) (Vec2.fromAngle (θ + Real.pi))) := by
  rw [repulsive_force, if_pos h]

theorem length_fst_repulsive_force_of_ne (θ : ℝ) (a b : Vec2) (h : a ≠ b) :
    Vec2.length (repulsive_force θ a b).1 = IDEAL_LENGTH ^ 2 / Vec2.length (a - b) := by
  have hr : 0 < Vec2.length (a - b) := Vec2.length_pos _ (sub_ne_zero_of_ne h)
  rw [repulsive_force_of_ne θ a b h]
  show (Vec2.smul (IDEAL_LENGTH ^ 2 / Vec2.length (a - b))
      (Vec2.fromAngle (Vec2.toAngle (a - b)))).length = _
  rw [Vec2.length_smul, Vec2.length_fromAngle, mul_one,
    abs_of_nonneg (div_nonneg (by positivity) hr.le)]

theorem length_snd_repulsive_force_of_ne (θ : ℝ) (a b : Vec2) (h : a ≠ b) :
    Vec2.length (repulsive_force θ a b).2 = IDEAL_LENGTH ^ 2 / Vec2.length (a - b) := by
  have hr : 0 < Vec2.length (a - b) := Vec2.length_pos _ (sub_ne_zero_of_ne h)
  rw [repulsive_force_of_ne θ a b h]
  show (Vec2.smul (IDEAL_LENGTH ^ 2 / Vec2.length (a - b))
      (Vec2.fromAngle (Vec2.toAngle (a - b) + Real.pi))).length = _
  rw [Vec2.length_smul, Vec2.length_fromAngle, mul_one,
    abs_of_nonneg (div_nonneg (by positivity) hr.le)]

theorem genEdges_cons3 {α : Type} (x n1 n2 : α) (rest : List α) :
    genEdges (x :: n1 :: n2 :: rest) = (x, n1) :: (x, n2) :: genEdges rest := rfl

theorem genEdges_mem {α : Type} :
    ∀ (l : List α), l.Nodup → ∀ e ∈ genEdges l, e.1 ≠ e.2 ∧ e.1 ∈ l ∧ e.2 ∈ l
  | [], _, _, he => by simp [genEdges] at he
  | [_], _, _, he => by simp [genEdges] at he
  | [_, _], _, _, he => by simp [genEdges] at he
  | x :: n1 :: n2 :: rest, hnd, e, he => by
      have hx : x ∉ n1 :: n2 :: rest := (List.nodup_cons.mp hnd).1
      have hnd1 : (n1 :: n2 :: rest).Nodup := (List.nodup_cons.mp hnd).2
      have hndr : rest.Nodup := (List.nodup_cons.mp (List.nodup_cons.mp hnd1).2).2
      simp only [genEdges, List.mem_cons] at he
      rcases he with rfl | rfl | he
      · refine ⟨fun hcon => hx ?_, by simp, by simp⟩
        simp only [List.mem_cons]
        exact Or.inl hcon
      · refine ⟨fun hcon => hx ?_, by simp, by simp⟩
        simp only [List.mem_cons]
        exact Or.inr (Or.inl hcon)
      · have ih := genEdges_mem rest hndr e he
        exact ⟨ih.1, by simp [ih.2.1], by simp [ih.2.2]⟩

theorem update_none_of_missing (transform : ℕ → Option Vec2) (randAngle : ℕ → ℝ) :
    ∀ (events : List (ℕ × ℕ)) (i aId bId : ℕ),
      (aId, bId) ∈ events → transform aId = none ∨ transform bId = none →
      update transform randAngle i events = none
  | [], _, _, _, hmem, _ => absurd hmem (List.not_mem_nil _)
  | (c, d) :: rest, i, aId, bId, hmem, hmiss => by
      rcases List.mem_cons.mp hmem with heq | htail
      · have hc : aId = c := congrArg Prod.fst heq
        have hd : bId = d := congrArg Prod.snd heq
        subst hc; subst hd
        rcases hmiss with h | h <;>
          cases h1 : transform aId <;> cases h2 : transform bId <;>
            simp_all [update]
      · have ih := update_none_of_missing transform randAngle rest (i + 1) aId bId htail hmiss
        cases h1 : transform c <;> cases h2 : transform d <;>
          simp [update, h1, h2, ih]

theorem process_delta_v_none_of_missing :
    ∀ (deltas : List (ℕ × Vec2)) (vel : ℕ → Option Vec2) (id : ℕ) (dv : Vec2),
      (id, dv) ∈ deltas → vel id = none → process_delta_v vel deltas = none
  | [], _, _, _, hmem, _ => absurd hmem (List.not_mem_nil _)
  | (c, w) :: rest, vel, id, dv, hmem, hmiss => by
      rcases List.mem_cons.mp hmem with heq | htail
      · have hc : id = c := congrArg Prod.fst heq
        subst hc
        simp only [process_delta_v, hmiss]
      · cases h1 : vel c
        · simp only [process_delta_v, h1]
        · simp only [process_delta_v, h1]
          apply process_delta_v_none_of_missing rest _ id dv htail
          have hne : id ≠ c := by
            intro hcon
            rw [hcon, h1] at hmiss
            cases hmiss
          simp [hne, hmiss]

theorem move_on_drag_none_of_missing (w : World) (target : ℕ) (cursor : Option Vec2)
    (h : w.transform target = none) : move_on_drag w target cursor = none := by
  simp only [move_on_drag, h]

theorem genEdges_length {α : Type} :
    ∀ l : List α, (genEdges l).length = 2 * (l.length / 3)
  | [] => by simp [genEdges]
  | [_] => by simp [genEdges]
  | [_, _] => by simp [genEdges]
  | x :: n1 :: n2 :: rest => by
      have ih := genEdges_length rest
      simp only [genEdges, List.length_cons, ih]
      omega

/-- C1: for every contact pair (A, B) with distinct positions,
`repulsive_force` returns two exactly opposite impulses, each of
magnitude `IDEAL_LENGTH ^ 2 / |pA - pB|`, with the impulse on A pointing
along `pA - pB` and the impulse on B along the reversed direction. -/
theorem c1_repulsion_nondegenerate (θ : ℝ) (a b : Vec2) (h : a ≠ b) :
    (repulsive_force θ a b).1
        = Vec2.smul (IDEAL_LENGTH ^ 2 / Vec2.length (a - b) ^ 2) (a - b)
    ∧ (repulsive_force θ a b).2 = -(repulsive_force θ a b).1
    ∧ Vec2.length (repulsive_force θ a b).1 = IDEAL_LENGTH ^ 2 / Vec2.length (a - b)
    ∧ Vec2.length (repulsive_force θ a b).2 = IDEAL_LENGTH ^ 2 / Vec2.length (a - b) := by
  have hd : a - b ≠ 0 := sub_ne_zero_of_ne h
  have hr : 0 < Vec2.length (a - b) := Vec2.length_pos _ hd
  refine ⟨?_, ?_, length_fst_repulsive_force_of_ne θ a b h,
    length_snd_repulsive_force_of_ne θ a b h⟩
  · rw [repulsive_force_of_ne θ a b h]
    show Vec2.smul (IDEAL_LENGTH ^ 2 / Vec2.length (a - b))
        (Vec2.fromAngle (Vec2.toAngle (a - b)))
      = Vec2.smul (IDEAL_LENGTH ^ 2 / Vec2.length (a - b) ^ 2) (a - b)
    rw [Vec2.fromAngle_toAngle _ hd]
    refine Prod.ext ?_ ?_
    · show IDEAL_LENGTH ^ 2 / Vec2.length (a - b) * ((a - b).1 / Vec2.length (a - b))
        = IDEAL_LENGTH ^ 2 / Vec2.length (a - b) ^ 2 * (a - b).1
      rw [div_mul_div_comm, ← sq, div_mul_eq_mul_div]
    · show IDEAL_LENGTH ^ 2 / Vec2.length (a - b) * ((a - b).2 / Vec2.length (a - b))
        = IDEAL_LENGTH ^ 2 / Vec2.length (a - b) ^ 2 * (a - b).2
      rw [div_mul_div_comm, ← sq, div_mul_eq_mul_div]
  · rw [repulsive_force_of_ne θ a b h]
    show Vec2.smul (IDEAL_LENGTH ^ 2 / Vec2.length (a - b))
        (Vec2.fromAngle (Vec2.toAngle (a - b) + Real.pi))
      = -(Vec2.smul (IDEAL_LENGTH ^ 2 / Vec2.length (a - b))
          (Vec2.fromAngle (Vec2.toAngle (a - b))))
    rw [Vec2.fromAngle_add_pi, Vec2.smul_neg_right]

theorem c1_repulsion_nondegenerate_witness :
    (((0 : ℝ), (0 : ℝ)) : Vec2) ≠ ((3 : ℝ), (4 : ℝ))
    ∧ (repulsive_force 0 ((0 : ℝ), (0 : ℝ)) ((3 : ℝ), (4 : ℝ))).2
        = -(repulsive_force 0 ((0 : ℝ), (0 : ℝ)) ((3 : ℝ), (4 : ℝ))).1 :=
  ⟨by norm_num [Prod.ext_iff],
   (c1_repulsion_nondegenerate 0 ((0 : ℝ), (0 : ℝ)) ((3 : ℝ), (4 : ℝ))
     (by norm_num [Prod.ext_iff])).2.1⟩

/-- C2: for a contact pair with identical positions and any sampled angle
θ in [-π, π], `repulsive_force` takes the degenerate branch: impulse on A
is `IDEAL_LENGTH ^ 2` times the unit vector at angle θ, impulse on B the
same magnitude at angle θ + π, the two impulses are opposite vectors of
magnitude exactly `IDEAL_LENGTH ^ 2`, and no division occurs. -/
theorem c2_repulsion_degenerate (θ : ℝ) (a b : Vec2) (hab : a = b)
    (hθ : -Real.pi ≤ θ ∧ θ ≤ Real.pi) :
    (repulsive_force θ a b).1 = Vec2.smul (IDEAL_LENGTH ^ 2) (Vec2.fromAngle θ)
    ∧ (repulsive_force θ a b).2
        = Vec2.smul (IDEAL_LENGTH ^ 2) (Vec2.fromAngle (θ + Real.pi))
    ∧ (repulsive_force θ a b).2 = -(repulsive_force θ a b).1
    ∧ Vec2.length (repulsive_force θ a b).1 = IDEAL_LENGTH ^ 2
    ∧ Vec2.length (repulsive_force θ a b).2 = IDEAL_LENGTH ^ 2 := by
  rw [repulsive_force_of_eq θ a b hab]
  refine ⟨rfl, rfl, ?_, ?_, ?_⟩
  · show Vec2.smul (IDEAL_LENGTH ^ 2) (Vec2.fromAngle (θ + Real.pi))
      = -(Vec2.smul (IDEAL_LENGTH ^ 2) (Vec2.fromAngle θ))
    rw [Vec2.fromAngle_add_pi, Vec2.smul_neg_right]
  · show (Vec2.smul (IDEAL_LENGTH ^ 2) (Vec2.fromAngle θ)).length = IDEAL_LENGTH ^ 2
    rw [Vec2.length_smul, Vec2.length_fromAngle, mul_one,
      abs_of_nonneg (by positivity : (0 : ℝ) ≤ IDEAL_LENGTH ^ 2)]
  · show (Vec2.smul (IDEAL_LENGTH ^ 2) (Vec2.fromAngle (θ + Real.pi))).length
      = IDEAL_LENGTH ^ 2
    rw [Vec2.length_smul, Vec2.length_fromAngle, mul_one,
      abs_of_nonneg (by positivity : (0 : ℝ) ≤ IDEAL_LENGTH ^ 2)]

theorem c2_repulsion_degenerate_witness :
    (((1 : ℝ), (2 : ℝ)) : Vec2) = ((1 : ℝ), (2 : ℝ))
    ∧ (-Real.pi ≤ 0 ∧ (0 : ℝ) ≤ Real.pi)
    ∧ Vec2.length (repulsive_force 0 ((1 : ℝ), (2 : ℝ)) ((1 : ℝ), (2 : ℝ))).1
        = IDEAL_LENGTH ^ 2 :=
  ⟨rfl, ⟨neg_nonpos.mpr Real.pi_nonneg, Real.pi_nonneg⟩,
   (c2_repulsion_degenerate 0 ((1 : ℝ), (2 : ℝ)) ((1 : ℝ), (2 : ℝ)) rfl
     ⟨neg_nonpos.mpr Real.pi_nonneg, Real.pi_nonneg⟩).2.2.2.1⟩

/-- C4: for distinct input positions the divisor `|a - b|` used by the
non-degenerate branch of `repulsive_force` is nonzero, and the function
evaluates to that branch; the degenerate equal-position case is diverted
beforehand (see `repulsive_force_of_eq`), so no division by zero occurs. -/
theorem c4_no_division_by_zero (θ : ℝ) (a b : Vec2) (h : a ≠ b) :
    Vec2.length (a - b) ≠ 0
    ∧ repulsive_force θ a b
        = (Vec2.smul (IDEAL_LENGTH ^ 2 / Vec2.length (a - b))
             (Vec2.fromAngle (Vec2.toAngle (a - b))),
           Vec2.smul (IDEAL_LENGTH ^ 2 / Vec2.length (a - b))
             (Vec2.fromAngle (Vec2.toAngle (a - b) + Real.pi))) :=
  ⟨(Vec2.length_pos _ (sub_ne_zero_of_ne h)).ne', repulsive_force_of_ne θ a b h⟩

theorem c4_no_division_by_zero_witness :
    (((0 : ℝ), (0 : ℝ)) : Vec2) ≠ ((1 : ℝ), (0 : ℝ))
    ∧ Vec2.length ((((0 : ℝ), (0 : ℝ)) : Vec2) - ((1 : ℝ), (0 : ℝ))) ≠ 0 :=
  ⟨by norm_num [Prod.ext_iff],
   (c4_no_division_by_zero 0 ((0 : ℝ), (0 : ℝ)) ((1 : ℝ), (0 : ℝ))
     (by norm_num [Prod.ext_iff])).1⟩

/-- C8: at the concrete input pA = (0,0), pB = (10,0) the repulsion
computation yields force magnitude 2500 / 10 = 250 and the exact impulses
impulseA = (-250, 0), impulseB = (250, 0), whatever angle the RNG would
have drawn for the (unreached) degenerate branch. -/
theorem c8_concrete_two_nodes (θ : ℝ) :
    repulsive_force θ ((0 : ℝ), (0 : ℝ)) ((10 : ℝ), (0 : ℝ))
      = ((((-250 : ℝ), (0 : ℝ)) : Vec2), (((250 : ℝ), (0 : ℝ)) : Vec2)) := by
  have hne : (((0 : ℝ), (0 : ℝ)) : Vec2) ≠ ((10 : ℝ), (0 : ℝ)) := by
    norm_num [Prod.ext_iff]
  have hdiff : (((0 : ℝ), (0 : ℝ)) : Vec2) - ((10 : ℝ), (0 : ℝ))
      = (((-10 : ℝ), (0 : ℝ)) : Vec2) := by
    refine Prod.ext ?_ ?_ <;> norm_num [Prod.fst_sub, Prod.snd_sub]
  have hang : Vec2.toAngle (((-10 : ℝ), (0 : ℝ)) : Vec2) = Real.pi := by
    unfold Vec2.toAngle
    have hmk : (⟨(-10 : ℝ), (0 : ℝ)⟩ : ℂ) = ((-10 : ℝ) : ℂ) := by
      apply Complex.ext <;> simp
    rw [hmk, Complex.arg_ofReal_of_neg (by norm_num)]
  have hlen : Vec2.length (((-10 : ℝ), (0 : ℝ)) : Vec2) = 10 := by
    unfold Vec2.length
    rw [show ((-10 : ℝ)) ^ 2 + (0 : ℝ) ^ 2 = 10 ^ 2 by norm_num,
      Real.sqrt_sq (by norm_num : (0 : ℝ) ≤ 10)]
  have h1 : Vec2.fromAngle Real.pi = (((-1 : ℝ), (0 : ℝ)) : Vec2) := by
    unfold Vec2.fromAngle
    rw [Real.cos_pi, Real.sin_pi]
  have h2 : Vec2.fromAngle (Real.pi + Real.pi) = (((1 : ℝ), (0 : ℝ)) : Vec2) := by
    unfold Vec2.fromAngle
    rw [Real.cos_add, Real.sin_add, Real.cos_pi, Real.sin_pi]
    norm_num [Prod.ext_iff]
  rw [repulsive_force_of_ne θ _ _ hne, hdiff, hang, hlen, h1, h2]
  unfold Vec2.smul IDEAL_LENGTH
  norm_num [Prod.ext_iff]

/-- C3: the edge-spawning loop takes consecutive triples (x, n1, n2) and
adds edges (x, n1) and (x, n2) per complete triple, producing exactly
2 * floor(N/3) edges for N nodes (in particular 2 * floor(N/3) for the
`List.range N` ordering of `setup`), and any id list shorter than three
— including a trailing partial group — yields no edges and no error. -/
theorem c3_topology_edge_count {α : Type} (N : ℕ) (x n1 n2 : α)
    (rest l s : List α) (hs : s.length < 3) :
    genEdges (x :: n1 :: n2 :: rest) = (x, n1) :: (x, n2) :: genEdges rest
    ∧ (genEdges l).length = 2 * (l.length / 3)
    ∧ (genEdges (List.range N)).length = 2 * (N / 3)
    ∧ genEdges s = [] := by
  refine ⟨rfl, genEdges_length l, ?_, ?_⟩
  · rw [genEdges_length, List.length_range]
  · have h0 : (genEdges s).length = 0 := by
      rw [genEdges_length]
      omega
    exact List.length_eq_zero.mp h0

theorem c3_topology_edge_count_witness :
    ([(9 : ℕ), 10].length < 3)
    ∧ (genEdges ((0 : ℕ) :: 1 :: 2 :: [3, 4])
          = ((0 : ℕ), (1 : ℕ)) :: ((0 : ℕ), (2 : ℕ)) :: genEdges [3, 4]
      ∧ (genEdges [(5 : ℕ), 6, 7, 8]).length = 2 * ([(5 : ℕ), 6, 7, 8].length / 3)
      ∧ (genEdges (List.range 7)).length = 2 * (7 / 3)
      ∧ genEdges [(9 : ℕ), 10] = []) :=
  ⟨by decide, c3_topology_edge_count 7 0 1 2 [3, 4] [5, 6, 7, 8] [9, 10] (by decide)⟩

/-- C9: every edge produced by the edge-spawning loop over a
duplicate-free id list (as produced by `setup`, here the canonical
`List.range N` ordering for any node_total N) joins two distinct ids,
both taken from the generated node set. -/
theorem c9_no_self_loops (N : ℕ) (e : ℕ × ℕ)
    (he : e ∈ genEdges (List.range N)) :
    e.1 ≠ e.2 ∧ e.1 ∈ List.range N ∧ e.2 ∈ List.range N :=
  genEdges_mem (List.range N) (List.nodup_range N) e he

theorem c9_no_self_loops_witness :
    (((0 : ℕ), (1 : ℕ)) ∈ genEdges (List.range 3))
    ∧ ((0 : ℕ) ≠ 1 ∧ (0 : ℕ) ∈ List.range 3 ∧ (1 : ℕ) ∈ List.range 3) :=
  ⟨by decide, c9_no_self_loops 3 (0, 1) (by decide)⟩

/-- C5: whenever a contact event (`update`), a queued velocity delta
(`process_delta_v`), or a drag signal (`move_on_drag`) references an
entity id that does not resolve to the required component, the whole
system run aborts (`none`, the model of the source's expect/unwrap
panics) rather than silently skipping the event. -/
theorem c5_missing_handle_is_fatal
    (transform vel : ℕ → Option Vec2) (randAngle : ℕ → ℝ) (i : ℕ)
    (events : List (ℕ × ℕ)) (deltas : List (ℕ × Vec2)) (w : World)
    (target aId bId id : ℕ) (dv : Vec2) (cursor : Option Vec2)
    (hev : (aId, bId) ∈ events)
    (hmiss : transform aId = none ∨ transform bId = none)
    (hdv : (id, dv) ∈ deltas) (hvel : vel id = none)
    (htr : w.transform target = none) :
    update transform randAngle i events = none
    ∧ process_delta_v vel deltas = none
    ∧ move_on_drag w target cursor = none :=
  ⟨update_none_of_missing transform randAngle events i aId bId hev hmiss,
   process_delta_v_none_of_missing deltas vel id dv hdv hvel,
   move_on_drag_none_of_missing w target cursor htr⟩

theorem c5_missing_handle_is_fatal_witness :
    (((0 : ℕ), (1 : ℕ)) ∈ [((0 : ℕ), (1 : ℕ))])
    ∧ ((fun _ : ℕ => (none : Option Vec2)) 0 = none
        ∨ (fun _ : ℕ => (none : Option Vec2)) 1 = none)
    ∧ (((2 : ℕ), (((0 : ℝ), (0 : ℝ)) : Vec2)) ∈ [((2 : ℕ), (((0 : ℝ), (0 : ℝ)) : Vec2))])
    ∧ (World.mk (fun _ => none) (fun _ => none)).transform 3 = none
    ∧ (update (fun _ => none) (fun _ => 0) 0 [(0, 1)] = none
      ∧ process_delta_v (fun _ => none) [(2, ((0 : ℝ), (0 : ℝ)))] = none
      ∧ move_on_drag (World.mk (fun _ => none) (fun _ => none)) 3 none = none) :=
  ⟨List.mem_singleton.mpr rfl, Or.inl rfl, List.mem_singleton.mpr rfl, rfl,
   c5_missing_handle_is_fatal (fun _ => none) (fun _ => none) (fun _ => 0) 0
     [(0, 1)] [(2, ((0 : ℝ), (0 : ℝ)))] (World.mk (fun _ => none) (fun _ => none))
     3 0 1 2 ((0 : ℝ), (0 : ℝ)) none
     (List.mem_singleton.mpr rfl) (Or.inl rfl) (List.mem_singleton.mpr rfl) rfl rfl⟩

/-- C6: when the drag signal carries no valid cursor world position, the
override mutates nothing and returns without effect: the world comes back
exactly as it was, and in particular the dragged node is never reset to a
default position. -/
theorem c6_drag_without_position_is_noop (w : World) (target : ℕ) (t : Vec2)
    (h : w.transform target = some t) :
    move_on_drag w target none = some w := by
  simp only [move_on_drag, h]

theorem c6_drag_without_position_is_noop_witness :
    (World.mk (fun _ => some ((7 : ℝ), (8 : ℝ))) (fun _ => none)).transform 0
        = some ((7 : ℝ), (8 : ℝ))
    ∧ move_on_drag (World.mk (fun _ => some ((7 : ℝ), (8 : ℝ))) (fun _ => none)) 0 none
        = some (World.mk (fun _ => some ((7 : ℝ), (8 : ℝ))) (fun _ => none)) :=
  ⟨rfl,
   c6_drag_without_position_is_noop
     (World.mk (fun _ => some ((7 : ℝ), (8 : ℝ))) (fun _ => none)) 0
     ((7 : ℝ), (8 : ℝ)) rfl⟩

/-- C7: a drag signal with a valid target world position writes only the
dragged node's position, setting it to the target; its velocity and the
positions and velocities of every other node are left unchanged. -/
theorem c7_drag_writes_only_target_position (w : World) (target : ℕ) (t p : Vec2)
    (h : w.transform target = some t) :
    ∃ w2 : World, move_on_drag w target (some p) = some w2
      ∧ w2.transform target = some p
      ∧ (∀ j, j ≠ target → w2.transform j = w.transform j)
      ∧ w2.velocity = w.velocity := by
  refine ⟨World.mk (fun j => if j = target then some p else w.transform j) w.velocity,
    ?_, by simp, fun j hj => by simp [hj], rfl⟩
  simp only [move_on_drag, h]

theorem c7_drag_writes_only_target_position_witness :
    (World.mk (fun _ => some ((7 : ℝ), (8 : ℝ))) (fun _ => none)).transform 0
        = some ((7 : ℝ), (8 : ℝ))
    ∧ (∃ w2 : World,
        move_on_drag (World.mk (fun _ => some ((7 : ℝ), (8 : ℝ))) (fun _ => none)) 0
            (some ((1 : ℝ), (2 : ℝ))) = some w2
          ∧ w2.transform 0 = some ((1 : ℝ), (2 : ℝ))
          ∧ (∀ j, j ≠ 0 → w2.transform j
              = (World.mk (fun _ => some ((7 : ℝ), (8 : ℝ))) (fun _ => none)).transform j)
          ∧ w2.velocity
              = (World.mk (fun _ => some ((7 : ℝ), (8 : ℝ))) (fun _ => none)).velocity) :=
  ⟨rfl,
   c7_drag_writes_only_target_position
     (World.mk (fun _ => some ((7 : ℝ), (8 : ℝ))) (fun _ => none)) 0
     ((7 : ℝ), (8 : ℝ)) ((1 : ℝ), (2 : ℝ)) rfl⟩

/-- The repulsion computation as it executes in a running app whose
`Config` resource is `c`: the source function `repulsive_force` reads
only the compile-time constant `IDEAL_LENGTH` and never the `Config`
resource, so the parameter `c` is dead.  This wrapper makes that ambient
configuration explicit so that the independence can be stated. -/
noncomputable def repulsionWithConfig (c : Config) (θ : ℝ) (a b : Vec2) :
    Vec2 × Vec2 :=
  repulsive_force θ a b

/-- C10: two runs whose configurations differ only in the run-time
`ideal_length` field produce identical repulsion impulses for every pair
of input positions, the degenerate equal-position case included: the
force magnitude comes from the compile-time constant `IDEAL_LENGTH = 50`,
so the configurable `ideal_length` has no influence on the repulsion
output. -/
theorem c10_repulsion_ignores_config (c1 c2 : Config) (θ : ℝ) (a b : Vec2)
    (hcool : c1.cooling_factor = c2.cooling_factor)
    (hmass : c1.node_mass = c2.node_mass)
    (hcomp : c1.compliance = c2.compliance)
    (htot : c1.node_total = c2.node_total)
    (hrad : c1.collider_radius = c2.collider_radius) :
    repulsionWithConfig c1 θ a b = repulsionWithConfig c2 θ a b
    ∧ IDEAL_LENGTH = 50 :=
  ⟨rfl, rfl⟩

theorem c10_repulsion_ignores_config_witness :
    ((Config.default.cooling_factor
        = ({ Config.default with ideal_length := 99 } : Config).cooling_factor)
      ∧ (Config.default.node_mass
        = ({ Config.default with ideal_length := 99 } : Config).node_mass)
      ∧ (Config.default.compliance
        = ({ Config.default with ideal_length := 99 } : Config).compliance)
      ∧ (Config.default.node_total
        = ({ Config.default with ideal_length := 99 } : Config).node_total)
      ∧ (Config.default.collider_radius
        = ({ Config.default with ideal_length := 99 } : Config).collider_radius))
    ∧ (repulsionWithConfig Config.default 0 ((3 : ℝ), (4 : ℝ)) ((3 : ℝ), (4 : ℝ))
          = repulsionWithConfig ({ Config.default with ideal_length := 99 } : Config) 0
              ((3 : ℝ), (4 : ℝ)) ((3 : ℝ), (4 : ℝ))
        ∧ IDEAL_LENGTH = 50) :=
  ⟨⟨rfl, rfl, rfl, rfl, rfl⟩,
   c10_repulsion_ignores_config Config.default
     ({ Config.default with ideal_length := 99 } : Config) 0
     ((3 : ℝ), (4 : ℝ)) ((3 : ℝ), (4 : ℝ)) rfl rfl rfl rfl rfl⟩
